import Mathlib

/-!
Verification development for the kra-go serialization engine.

The definitions below are a shallow embedding of the Go sources:
`pkg/document/document.go` (packager, tile codec, preview),
`pkg/asl/asl.go` (style block encoder) and the `xmlhelper` package
(manifest XML tree printer).  Byte buffers are `List Nat` with every
entry below 256 by construction; Go strings appear either as Lean
`String` (when only compared or printed) or as their byte lists (when
byte-level encoding matters).  Multi-byte big-endian integer writes of
`encoding/binary` are explicit byte extractions with the `% 2^w`
truncation of Go's integer conversions built in.
-/

/-- Big-endian byte pair of a value written as a Go `uint16`
(`binary.Write(buf, binary.BigEndian, uint16(n))`). -/

def u16be (n : Nat) : List Nat := [n / 256 % 256, n % 256]

/-- Big-endian byte quadruple of a value written as a Go `uint32`.
Each byte extraction `n / 2^(8k) % 256` already realises the `uint32`
truncation, so no separate `% 2^32` is needed. -/

def u32be (n : Nat) : List Nat :=
  [n / 16777216 % 256, n / 65536 % 256, n / 256 % 256, n % 256]

/-- Big-endian byte run of a 64-bit pattern.  `binary.Write` of a Go
`float64` emits the 8 bytes of its IEEE-754 bit pattern; floating-point
fields are carried through the embedding as their `Nat` bit patterns. -/

def u64be (n : Nat) : List Nat :=
  [n / 72057594037927936 % 256, n / 281474976710656 % 256,
   n / 1099511627776 % 256, n / 4294967296 % 256,
   n / 16777216 % 256, n / 65536 % 256, n / 256 % 256, n % 256]

/-- Reads a big-endian `u32` from the first four bytes of a buffer. -/

def u32beDecode : List Nat → Nat
  | b0 :: b1 :: b2 :: b3 :: _ => ((b0 * 256 + b1) * 256 + b2) * 256 + b3
  | _ => 0

/-- Byte list of an ASCII literal (every tag literal in the sources is
ASCII, where each character is exactly one UTF-8 byte). -/

def asciiStr (s : String) : List Nat := s.data.map Char.toNat

/-! ## Tile codec (`SaveKritaLayer`, document.go lines 432-486) -/

/-- One RGBA pixel with 8-bit channels.  `SaveKritaLayer` reads
`c.RGBA()` from an `image.RGBA` buffer and shifts each 16-bit channel
right by 8, recovering the stored 8-bit values. -/

structure Pixel where
  r : Nat
  g : Nat
  b : Nat
  a : Nat
deriving DecidableEq

/-- A raster image as a pixel function over x, y coordinates; width and
height travel alongside as explicit arguments. -/

def ImgF : Type := Nat → Nat → Pixel

/-- Go `nx := int(math.Ceil(float64(w) / 64.0))`: the number of tile
columns.  For the integer widths involved the float ceiling equals the
Nat ceiling division `(w + 63) / 64`. -/

def nTilesX (w : Nat) : Nat := (w + 63) / 64

/-- Go `ny := int(math.Ceil(float64(h) / 64.0))`: the number of tile rows. -/

def nTilesY (h : Nat) : Nat := (h + 63) / 64

/-- Pixel (x, y) of the 64×64 tile whose origin is (left, top).
`SaveKritaLayer` allocates a fresh zeroed `image.NewRGBA` tile buffer
and `draw.Draw` copies only the source pixels inside the image bounds,
so out-of-bounds positions keep the fully transparent zero pixel. -/

def tilePixel (img : ImgF) (w h left top x y : Nat) : Pixel :=
  if left + x < w ∧ top + y < h then img (left + x) (top + y) else ⟨0, 0, 0, 0⟩

/-- The 4096 pixels of one tile in the order the Go double loop visits
them: `y` (rows) outer, `x` (columns) inner. -/

def tilePixels (img : ImgF) (w h left top : Nat) : List Pixel :=
  (List.range 64).flatMap fun y => (List.range 64).map fun x => tilePixel img w h left top x y

/-- One step of the per-pixel loop body: each channel byte is appended
to its own plane slice (`red = append(red, ...)` and so on). -/

def buildPlanesStep (acc : List Nat × List Nat × List Nat × List Nat) (p : Pixel) :
    List Nat × List Nat × List Nat × List Nat :=
  (acc.1 ++ [p.b], acc.2.1 ++ [p.g], acc.2.2.1 ++ [p.r], acc.2.2.2 ++ [p.a])

/-- The four plane slices (blue, green, red, alpha) built by the pixel
loop of `SaveKritaLayer`. -/

def buildPlanes (ps : List Pixel) : List Nat × List Nat × List Nat × List Nat :=
  ps.foldl buildPlanesStep ([], [], [], [])

/-- Go `planeData := append(append(blue, green...), append(red, alpha...)...)`:
the four planes concatenated in the fixed order blue, green, red, alpha. -/

def planeData (img : ImgF) (w h left top : Nat) : List Nat :=
  let p := buildPlanes (tilePixels img w h left top)
  (p.1 ++ p.2.1) ++ (p.2.2.1 ++ p.2.2.2)

/-- Payload of one tile: the flag byte `0x01` followed by the output of
`lzf.Compress(planeData)`.  When `lzf.Compress` returns an error the Go
code replaces the output with the empty slice and carries on, so the
failure branch yields the bare flag byte `[1]`. -/

def tileDataOf (compress : List Nat → Option (List Nat)) (plane : List Nat) : List Nat :=
  match compress plane with
  | some c => 1 :: c
  | none => [1]

/-- One entry of `tileEntries`: the fields of the per-tile header line
plus the payload bytes. -/

structure TileEntry where
  left : Nat
  top : Nat
  tag : String
  plen : Nat
  data : List Nat
deriving DecidableEq

/-- Builds a tile record exactly as the loop body of `SaveKritaLayer`
does: payload, then the header fields, where the printed length is
`len(tileData)` and the tag is always the literal `LZF`. -/

def tileEntry (compress : List Nat → Option (List Nat)) (img : ImgF)
    (w h left top : Nat) : TileEntry :=
  let d := tileDataOf compress (planeData img w h left top)
  ⟨left, top, "LZF", d.length, d⟩

/-- Tile origins in the order of the nested loops of `SaveKritaLayer`:
`ty` from 0 to ny-1 outer, `tx` from 0 to nx-1 inner, origin
`(tx*64, ty*64)`. -/

def tileOrigins (w h : Nat) : List (Nat × Nat) :=
  (List.range (nTilesY h)).flatMap fun ty =>
    (List.range (nTilesX w)).map fun tx => (tx * 64, ty * 64)

/-- All tile records of one layer, in emission order. -/

def tileEntries (compress : List Nat → Option (List Nat)) (img : ImgF)
    (w h : Nat) : List TileEntry :=
  (tileOrigins w h).map fun p => tileEntry compress img w h p.1 p.2

/-- The per-tile ASCII header line
`fmt.Sprintf("%d,%d,LZF,%d\n", left, top, len(tileData))`. -/

def headerLine (e : TileEntry) : String :=
  Nat.repr e.left ++ "," ++ Nat.repr e.top ++ "," ++ e.tag ++ ","
    ++ Nat.repr e.plen ++ "\n"

/-- The fixed file header of the tiled layer format, with the tile
count printed after `DATA`. -/

def fileHeader (n : Nat) : String :=
  "VERSION 2\nTILEWIDTH 64\nTILEHEIGHT 64\nPIXELSIZE 4\nDATA "
    ++ Nat.repr n ++ "\n"

/-- The full byte content `SaveKritaLayer` writes to the layer file:
the header block, then each tile's header line immediately followed by
its payload, with no separators. -/

def saveKritaLayerBytes (compress : List Nat → Option (List Nat)) (img : ImgF)
    (w h : Nat) : List Nat :=
  asciiStr (fileHeader (tileEntries compress img w h).length)
    ++ (tileEntries compress img w h).flatMap fun e => asciiStr (headerLine e) ++ e.data

/-- A compression oracle that always fails, modelling an
`lzf.Compress` error (lzf reports an error when the output would not
fit, e.g. for incompressible input). -/

def compressNone : List Nat → Option (List Nat) := fun _ => none

/-- The all-transparent test image. -/

def imgZero : ImgF := fun _ _ => ⟨0, 0, 0, 0⟩

/-! ## Document model (`pkg/layers/layers.go`) -/

/-- Embedding of `layers.LayerStyle`.  The `float64` fields (Scale, StrokeOpacity,
StrokeSize, the three StrokeColor channels) are carried as their 64-bit
IEEE bit patterns, which is exactly what `binary.Write` serializes. -/

structure LayerStyle where
  enabled : Bool
  scale : Nat
  strokeEnabled : Bool
  strokeOpacity : Nat
  strokeSize : Nat
  strokeColor0 : Nat
  strokeColor1 : Nat
  strokeColor2 : Nat

/-- Embedding of `layers.ShapeLayer` (text layers included: `FromText` builds a
`ShapeLayer` with ContentType "text").  Name and style-UUID strings are
carried as byte lists, since the style block encodes them byte-wise. -/

structure ShapeLayer where
  name : List Nat
  contentType : String
  opacity : Nat
  layerStyle : Option LayerStyle
  layerStyleUUID : List Nat

/-- Embedding of `layers.PaintLayer`: the decoded raster image, when present. -/

structure PaintLayer where
  image : Option ImgF
  opacity : Nat

/-- One entry of `KritaDocument.Layers`: each element is either a
`*layers.ShapeLayer` or a `*layers.PaintLayer`. -/

inductive Layer where
  | shape (sl : ShapeLayer)
  | paint (pl : PaintLayer)

/-! ## Style block encoder (`pkg/asl/asl.go`) -/

/-- The "embedded" string transform of `writeASLString`: each byte of
the input followed by a zero byte, then a two-byte zero terminator. -/

def encodeEmbeddedStr (s : List Nat) : List Nat :=
  (s.flatMap fun c => [c, 0]) ++ [0, 0]

/-- Embedding of `writeASLString` (asl.go lines 130-151): encode, prepend a u32
byte-length field unless in "key" mode, then zero-pad the encoded
buffer (not the length field) to the next multiple of 4. -/

def writeASLString (stringType : String) (s : List Nat) : List Nat :=
  let encoded := if stringType = "embedded" then encodeEmbeddedStr s else s
  (if stringType ≠ "key" then u32be encoded.length else [])
    ++ encoded ++ List.replicate ((4 - encoded.length % 4) % 4) 0

/-- The stroke-effect (`FrFX`) section written when
`LayerStyle.StrokeEnabled` holds (asl.go lines 82-121). -/

def strokeEffectBytes (st : LayerStyle) : List Nat :=
  asciiStr "FrFX" ++ asciiStr "Objc" ++ asciiStr "FrFX"
    ++ asciiStr "enab" ++ asciiStr "bool" ++ [1]
    ++ asciiStr "Style" ++ asciiStr "enum" ++ asciiStr "FStl" ++ asciiStr "OutF"
    ++ asciiStr "PntT" ++ asciiStr "enum" ++ asciiStr "FrFl" ++ asciiStr "SClr"
    ++ asciiStr "Md  " ++ asciiStr "enum" ++ asciiStr "BlnM" ++ asciiStr "Nrml"
    ++ asciiStr "Opct" ++ asciiStr "UntF#Prc" ++ u64be st.strokeOpacity
    ++ asciiStr "Sz  " ++ asciiStr "UntF#Pxl" ++ u64be st.strokeSize
    ++ asciiStr "Clr " ++ asciiStr "Objc" ++ asciiStr "RGBC"
    ++ asciiStr "Rd  " ++ asciiStr "doub" ++ u64be st.strokeColor0
    ++ asciiStr "Grn " ++ asciiStr "doub" ++ u64be st.strokeColor1
    ++ asciiStr "Bl  " ++ asciiStr "doub" ++ u64be st.strokeColor2

/-- The body of one style record: every byte written between the
reserved length field and the end of the record (asl.go lines 49-122).
The display name is decorated as `<name> (embedded)`; the style UUID
has its hyphens (byte 45) stripped and a `%` (byte 37) prepended. -/

def recordBody (sl : ShapeLayer) (st : LayerStyle) : List Nat :=
  asciiStr "null"
    ++ asciiStr "Nm  " ++ asciiStr "TEXT"
    ++ writeASLString "embedded" (asciiStr "<" ++ sl.name ++ asciiStr "> (embedded)")
    ++ asciiStr "Idnt" ++ asciiStr "TEXT"
    ++ writeASLString "embedded" (37 :: sl.layerStyleUUID.filter (fun c => c ≠ 45))
    ++ asciiStr "StyL"
    ++ asciiStr "documentMode" ++ asciiStr "Objc" ++ asciiStr "documentMode"
    ++ asciiStr "Lefx" ++ asciiStr "Objc" ++ asciiStr "Lefx"
    ++ asciiStr "Scl " ++ asciiStr "UntF#Prc" ++ u64be st.scale
    ++ asciiStr "masterFXSwitch" ++ asciiStr "bool"
    ++ [if st.enabled then 1 else 0]
    ++ (if st.strokeEnabled then strokeEffectBytes st else [])

/-- One full style record.  The Go code reserves a zero u32, writes the
body, then patches the field in place with
`uint32(asl.Len() - styleStartPos - 4)`, which equals prefixing the
body with its own byte length. -/

def styleRecord (sl : ShapeLayer) (st : LayerStyle) : List Nat :=
  u32be (recordBody sl st).length ++ recordBody sl st

/-- The `numStyles` counting loop of `CreateLayerStylesASL` (asl.go
lines 30-35). -/

def styledCount (ls : List Layer) : Nat :=
  ls.foldl (fun n l =>
    match l with
    | Layer.shape sl =>
      match sl.layerStyle with
      | some _ => n + 1
      | none => n
    | Layer.paint _ => n) 0

/-- Whether a layer carries a non-absent style (the condition of both
loops in `CreateLayerStylesASL`). -/

def isStyledLayer : Layer → Bool
  | Layer.shape sl => sl.layerStyle.isSome
  | Layer.paint _ => false

/-- The bytes a single layer contributes to the style block: styled
shape layers contribute their record, everything else is skipped. -/

def layerRecordBytes : Layer → List Nat
  | Layer.shape sl =>
    match sl.layerStyle with
    | some st => styleRecord sl st
    | none => []
  | Layer.paint _ => []

/-- The fixed 12-byte block header: u16 version 2, magic `8BSL`,
u16 format 3, u32 reserved 0. -/

def aslFixedHeader : List Nat := u16be 2 ++ asciiStr "8BSL" ++ u16be 3 ++ u32be 0

/-- Embedding of `CreateLayerStylesASL`: header, u32 style count, then each styled
layer's record in input order. -/

def createLayerStylesASL (ls : List Layer) : List Nat :=
  aslFixedHeader ++ u32be (styledCount ls) ++ ls.flatMap layerRecordBytes

/-- A concrete styled layer for the C7 witness: name "s", style UUID
"ab-cd", a style with the stroke effect enabled. -/

def demoStyle : LayerStyle :=
  ⟨true, 4636737291354636288, true, 4636737291354636288, 4613937818241073152,
   4643176031446892544, 4643176031446892544, 4643176031446892544⟩

/-- The shape layer carrying `demoStyle`. -/

def demoStyledLayer : ShapeLayer :=
  ⟨asciiStr "s", "shape", 255, some demoStyle, asciiStr "ab-cd"⟩

/-- A one-layer document for the C7 witness. -/

def demoAslLayers : List Layer := [Layer.shape demoStyledLayer]

/-! ## Manifest XML printer (`pkg/xmlhelper`, `XMLNode.ToString`) -/

/-- Embedding of `xmlhelper.XMLNode`.  Go backs `Attrs` with `map[string]string`,
whose iteration order is unspecified and actively randomized between
runs; the embedding therefore carries the attributes as a list standing
for one possible iteration order of that map, and two lists that are
permutations of each other stand for the same map. -/

inductive XMLNode where
  | mk (tag : String) (attrs : List (String × String)) (children : List XMLNode) (text : String)

/-- Tag accessor. -/

def XMLNode.tag : XMLNode → String
  | .mk t _ _ _ => t

/-- Attribute-list accessor. -/

def XMLNode.attrs : XMLNode → List (String × String)
  | .mk _ a _ _ => a

/-- The attribute loop of `ToString`, appending one rendered
attribute per map-iteration step, with no sorting. -/

def renderAttrs (l : List (String × String)) : String :=
  l.foldl (fun acc kv => acc ++ " " ++ kv.1 ++ "=" ++ "\"" ++ kv.2 ++ "\"") ""

mutual

/-- Embedding of `XMLNode.ToString`: renders the tag with its
attributes, the text, then each child two spaces deeper; a node with
no text and no children renders self-closing. -/

def XMLNode.render : XMLNode → String → String
  | .mk tag attrs children text, indent =>
    let a := renderAttrs attrs
    let inner := text ++ childrenRender children indent
    if inner = "" then "<" ++ tag ++ a ++ "/>"
    else "<" ++ tag ++ a ++ ">" ++ inner ++ "</" ++ tag ++ ">"

/-- The child loop of `ToString`: each child prefixed by a newline and
its indentation. -/

def childrenRender : List XMLNode → String → String
  | [], _ => ""
  | c :: cs, indent =>
    "\n" ++ indent ++ "  " ++ XMLNode.render c (indent ++ "  ") ++ childrenRender cs indent
end

/-- A two-attribute node under one map iteration order. -/

def xmlDemoA : XMLNode := .mk "layer" [("a", "1"), ("b", "2")] [] ""

/-- The same node under the other map iteration order. -/

def xmlDemoB : XMLNode := .mk "layer" [("b", "2"), ("a", "1")] [] ""

/-! ## Packager (`KritaDocument.Save`, document.go lines 70-179) -/

/-- The generated file name `fmt.Sprintf("layer%d", i+2)` for the
layer at index `i` (two implicit reserved slots). -/

def layerInfoName (i : Nat) : String := "layer" ++ Nat.repr (i + 2)

/-- The archive members `processLayers` writes for one layer:
`addShapeLayerToZip` adds the SVG content member at
`layers/<name>.shapelayer/content.svg`; `addPaintLayerToZip` adds the
tile data, the 4-byte default pixel and the icc profile, each under
`layers/`. -/

def processLayerMembers : Layer → String → List String
  | Layer.shape _, name => ["layers/" ++ name ++ ".shapelayer/content.svg"]
  | Layer.paint _, name =>
    ["layers/" ++ name, "layers/" ++ name ++ ".defaultpixel", "layers/" ++ name ++ ".icc"]

/-- The `hasStyle` scan of `Save` (document.go lines 159-165). -/

def anyLayerStyled (ls : List Layer) : Bool := ls.any isStyledLayer

/-- The ordered archive member names `Save` creates.  The animation,
icc and layer-style member names are built with
`filepath.Join(doc.TempDir, ...)`, so the staging directory name is
part of those archive member paths; the layer members are joined under
plain `layers/`. -/

def saveMembers (tempDir : String) (ls : List Layer) : List String :=
  ["mimetype", "documentinfo.xml", "maindoc.xml"]
    ++ (ls.enum.flatMap fun p => processLayerMembers p.2 (layerInfoName p.1))
    ++ [tempDir ++ "/animation/index.xml", tempDir ++ "/annotations/icc", "preview.png"]
    ++ (if anyLayerStyled ls then [tempDir ++ "/annotations/layerstyles.asl"] else [])

/-- The text layer of the C4 scenario: `AddTextLayer` goes through
`layers.FromText`, which returns a `ShapeLayer` with ContentType
"text". -/

def demoTextLayer : Layer := Layer.shape ⟨asciiStr "title", "text", 255, none, asciiStr "t-t"⟩

/-- The vector shape layer of the C4 scenario, unstyled. -/

def demoShapeLayer : Layer := Layer.shape ⟨asciiStr "vector", "shape", 255, none, asciiStr "v-v"⟩

/-- The paint layer of the C4 scenario. -/

def demoPaintLayer : Layer := Layer.paint ⟨some imgZero, 255⟩

/-- One TextLayer, one ShapeLayer, one PaintLayer, none styled, in
document order. -/

def demoSaveLayers : List Layer := [demoTextLayer, demoShapeLayer, demoPaintLayer]

/-- The fallible steps of `Save` in source order; the two layer-style
steps exist only when some layer is styled. -/

def saveStepNames (styled : Bool) : List String :=
  ["mkdir-layers", "mkdir-annotations", "mkdir-animation", "create-output-file",
   "write-mimetype", "write-documentinfo", "write-maindoc", "process-layers",
   "write-animation-index", "read-icc", "write-icc", "create-preview"]
    ++ (if styled then ["encode-layerstyles", "write-layerstyles"] else [])

/-- Runs `Save`'s straight-line error handling over an oracle saying
which steps fail: every `if err != nil` branch returns the error
immediately, and `os.RemoveAll(doc.TempDir)` is the last statement
before `return nil`.  Result: (success returned, staging directory
removed). -/

def runSave : List String → (String → Bool) → Bool × Bool
  | [], _ => (true, true)
  | s :: rest, failing =>
    if failing s then (false, false) else runSave rest failing

/-! ## Preview generation (`createPreview`, document.go lines 330-351) -/

/-- What the preview is rendered from: a chosen layer image, or the
freshly allocated transparent canvas-sized RGBA image. -/

inductive PreviewSource where
  | image (img : ImgF)
  | transparent (w h : Nat)

/-- The preview pipeline: the chosen source, the fixed 256×256
thumbnail size, the resampling kernel `draw.ApproxBiLinear` and the
`png.Encode` output format. -/

structure PreviewSpec where
  source : PreviewSource
  thumbW : Nat
  thumbH : Nat
  filter : String
  format : String

/-- The source-selection step of `createPreview`: only when the final
element of `doc.Layers` is a `*PaintLayer` with a non-nil image is
that image used. -/

def lastLayerPaintImage : List Layer → Option ImgF
  | ls =>
    match ls.getLast? with
    | some (Layer.paint pl) => pl.image
    | _ => none

/-- Embedding of `KritaDocument.createPreview`: choose the source, scale it to the
fixed 256×256 thumbnail with `draw.ApproxBiLinear`, and PNG-encode. -/

def createPreview (ls : List Layer) (w h : Nat) : PreviewSpec :=
  match lastLayerPaintImage ls with
  | some img => ⟨PreviewSource.image img, 256, 256, "ApproxBiLinear", "png"⟩
  | none => ⟨PreviewSource.transparent w h, 256, 256, "ApproxBiLinear", "png"⟩

/-- Whether any PaintLayer with an image exists anywhere in the
document (the selection rule the original claim asserts). -/

def hasPaintImageLayer (ls : List Layer) : Bool :=
  ls.any fun l =>
    match l with
    | Layer.paint pl => pl.image.isSome
    | Layer.shape _ => false

/-- A document whose paint layer is first and whose last layer is a
shape layer. -/

def demoPreviewLayers : List Layer := [demoPaintLayer, demoShapeLayer]

/-- The amended selection rule, written from the corrected claim's
words: the preview uses the final layer's image exactly when that final
layer is a PaintLayer carrying an image, and otherwise a fully
transparent canvas-sized image. -/

def previewSourceAmended (ls : List Layer) (w h : Nat) : PreviewSource :=
  match ls.getLast? with
  | some (Layer.paint pl) =>
    match pl.image with
    | some img => PreviewSource.image img
    | none => PreviewSource.transparent w h
  | _ => PreviewSource.transparent w h

/-! ## Lemmas, claim theorems, witnesses and counterexamples -/

/-- Length of a row-major grid enumeration. -/

theorem range_flatMap_map_length {α : Type} (a b : Nat) (g : Nat → Nat → α) :
    ((List.range b).flatMap fun y => (List.range a).map (g y)).length = b * a := by
  induction b with
  | zero => simp
  | succ n ih =>
    rw [List.range_succ, List.flatMap_append, List.length_append, ih]
    simp [Nat.succ_mul]

/-- Element `i` of a row-major grid enumeration is the cell in row
`i / a`, column `i % a`. -/

theorem range_flatMap_map_get {α : Type} (a b i : Nat) (g : Nat → Nat → α) (hi : i < b * a) :
    ((List.range b).flatMap fun y => (List.range a).map (g y))[i]?
      = some (g (i / a) (i % a)) := by
  induction b generalizing i with
  | zero => simp at hi
  | succ n ih =>
    rw [List.range_succ, List.flatMap_append]
    by_cases hlt : i < n * a
    · rw [List.getElem?_append_left (by rw [range_flatMap_map_length]; exact hlt)]
      exact ih i hlt
    · have h1 : n * a ≤ i := Nat.le_of_not_lt hlt
      have h4 : i < n * a + a := by rw [Nat.succ_mul] at hi; exact hi
      have hdiv : i / a = n := Nat.div_eq_of_lt_le h1 (by rw [Nat.succ_mul]; exact h4)
      have hkey := Nat.mod_add_div i a
      have hmod : i % a = i - n * a := by
        rw [hdiv, Nat.mul_comm] at hkey
        omega
      rw [List.getElem?_append_right (by rw [range_flatMap_map_length]; exact h1)]
      rw [range_flatMap_map_length]
      have h2 : i - n * a < a := by omega
      simp only [List.flatMap_cons, List.flatMap_nil, List.append_nil]
      rw [List.getElem?_map, List.getElem?_range h2, hdiv, hmod]
      rfl

/-- C2: for a W×H image with W > 0 and H > 0, `SaveKritaLayer` emits
exactly `ceil(W/64) * ceil(H/64)` tile records, prints that count after
`DATA`, every tile origin is a multiple of 64 inside `[0,W) × [0,H)`,
and record `i` sits at tile column `i % nx`, row `i / nx` — the
row-major order (rows top to bottom, columns left to right). -/

theorem tile_layout (compress : List Nat → Option (List Nat)) (img : ImgF)
    (w h : Nat) (_hw : 0 < w) (_hh : 0 < h) :
    (tileEntries compress img w h).length = nTilesX w * nTilesY h
  ∧ saveKritaLayerBytes compress img w h
      = asciiStr (fileHeader (nTilesX w * nTilesY h))
        ++ (tileEntries compress img w h).flatMap (fun e => asciiStr (headerLine e) ++ e.data)
  ∧ (∀ i, i < nTilesX w * nTilesY h →
      (tileOrigins w h)[i]? = some ((i % nTilesX w) * 64, (i / nTilesX w) * 64))
  ∧ (∀ p ∈ tileOrigins w h, p.1 % 64 = 0 ∧ p.2 % 64 = 0 ∧ p.1 < w ∧ p.2 < h)
  ∧ tileEntries compress img w h
      = (tileOrigins w h).map fun p => tileEntry compress img w h p.1 p.2 := by
  have hlen : (tileOrigins w h).length = nTilesY h * nTilesX w := by
    rw [tileOrigins, range_flatMap_map_length]
  have hcount : (tileEntries compress img w h).length = nTilesX w * nTilesY h := by
    rw [tileEntries, List.length_map, hlen, Nat.mul_comm]
  refine ⟨hcount, ?_, ?_, ?_, rfl⟩
  · rw [saveKritaLayerBytes, hcount]
  · intro i hi
    rw [tileOrigins, range_flatMap_map_get (nTilesX w) (nTilesY h) i _
      (by rw [Nat.mul_comm]; exact hi)]
  · intro p hp
    rw [tileOrigins] at hp
    simp only [List.mem_flatMap, List.mem_map, List.mem_range] at hp
    obtain ⟨ty, hty, tx, htx, rfl⟩ := hp
    rw [nTilesX] at htx
    rw [nTilesY] at hty
    exact ⟨Nat.mul_mod_left tx 64, Nat.mul_mod_left ty 64, by omega, by omega⟩

/-- C2 witness: the 65×65 example of the spec gives a 2×2 grid. -/

theorem tile_layout_witness :
    0 < 65
  ∧ (tileEntries compressNone imgZero 65 65).length = nTilesX 65 * nTilesY 65
  ∧ nTilesX 65 * nTilesY 65 = 4
  ∧ tileOrigins 65 65 = [(0, 0), (64, 0), (0, 64), (64, 64)] :=
  ⟨by decide, (tile_layout compressNone imgZero 65 65 (by decide) (by decide)).1,
   by decide, by decide⟩

/-- Accumulator form of the per-pixel plane building loop. -/

theorem buildPlanes_eq (ps : List Pixel) (b g r a : List Nat) :
    ps.foldl buildPlanesStep (b, g, r, a)
      = (b ++ ps.map Pixel.b, g ++ ps.map Pixel.g, r ++ ps.map Pixel.r, a ++ ps.map Pixel.a) := by
  induction ps generalizing b g r a with
  | nil => simp
  | cons p ps ih =>
    rw [List.foldl_cons, List.map_cons]
    rw [show buildPlanesStep (b, g, r, a) p
        = (b ++ [p.b], g ++ [p.g], r ++ [p.r], a ++ [p.a]) from rfl]
    rw [ih]
    simp

/-- A tile always holds 64 × 64 = 4096 pixels. -/

theorem tilePixels_length (img : ImgF) (w h left top : Nat) :
    (tilePixels img w h left top).length = 4096 := by
  rw [tilePixels, range_flatMap_map_length]

/-- C5: each tile's pixels are decomposed into four separate plane
byte-runs in the fixed order blue, green, red, alpha; each plane is
4096 bytes; the concatenated 16384-byte buffer is exactly what the
compression step receives. -/

theorem plane_decomposition (compress : List Nat → Option (List Nat)) (img : ImgF)
    (w h left top : Nat) :
    planeData img w h left top
      = ((tilePixels img w h left top).map Pixel.b ++ (tilePixels img w h left top).map Pixel.g)
        ++ ((tilePixels img w h left top).map Pixel.r
            ++ (tilePixels img w h left top).map Pixel.a)
  ∧ ((tilePixels img w h left top).map Pixel.b).length = 4096
  ∧ ((tilePixels img w h left top).map Pixel.g).length = 4096
  ∧ ((tilePixels img w h left top).map Pixel.r).length = 4096
  ∧ ((tilePixels img w h left top).map Pixel.a).length = 4096
  ∧ (planeData img w h left top).length = 16384
  ∧ (tileEntry compress img w h left top).data
      = tileDataOf compress (planeData img w h left top) := by
  have hplane : planeData img w h left top
      = ((tilePixels img w h left top).map Pixel.b ++ (tilePixels img w h left top).map Pixel.g)
        ++ ((tilePixels img w h left top).map Pixel.r
            ++ (tilePixels img w h left top).map Pixel.a) := by
    rw [planeData, buildPlanes, buildPlanes_eq]
    simp
  have hτ := tilePixels_length img w h left top
  refine ⟨hplane, ?_, ?_, ?_, ?_, ?_, rfl⟩ <;>
    simp [hplane, List.length_append, hτ]

/-- C1 (refuted by the code): when the compression step fails,
`SaveKritaLayer` keeps going and emits a record whose header still
carries the `LZF` compressed tag and whose payload is the bare `0x01`
flag byte with a zero-length compression output — neither an
uncompressed fallback nor a propagated failure. -/

theorem compression_failure_emits_bare_flag :
    (tileEntry compressNone imgZero 1 1 0 0).tag = "LZF"
  ∧ (tileEntry compressNone imgZero 1 1 0 0).data = [1]
  ∧ (tileEntry compressNone imgZero 1 1 0 0).plen = 1
  ∧ headerLine (tileEntry compressNone imgZero 1 1 0 0) = "0,0,LZF,1\n"
  ∧ tileEntries compressNone imgZero 1 1 = [tileEntry compressNone imgZero 1 1 0 0] :=
  ⟨rfl, rfl, rfl, rfl, rfl⟩

/-- C10: for every emitted tile record the number printed in the ASCII
header line is exactly the byte length of the payload written after it
(flag byte plus compression output), and on the compression-failure
branch that declared length is 1. -/

theorem tile_payload_length_consistent (compress : List Nat → Option (List Nat)) (img : ImgF)
    (w h : Nat) :
    ∀ e ∈ tileEntries compress img w h,
      e.plen = e.data.length
      ∧ e.tag = "LZF"
      ∧ headerLine e
          = Nat.repr e.left ++ "," ++ Nat.repr e.top ++ "," ++ e.tag ++ ","
            ++ Nat.repr e.data.length ++ "\n"
      ∧ (compress (planeData img w h e.left e.top) = none → e.data = [1] ∧ e.plen = 1) := by
  intro e he
  rw [tileEntries, List.mem_map] at he
  obtain ⟨p, hp, rfl⟩ := he
  refine ⟨rfl, rfl, rfl, ?_⟩
  intro hc
  have hc' : compress (planeData img w h p.1 p.2) = none := hc
  simp [tileEntry, tileDataOf, hc']

/-- C10 witness: the single tile of a 1×1 image under a failing
compressor. -/

theorem tile_payload_length_consistent_witness :
    tileEntry compressNone imgZero 1 1 0 0 ∈ tileEntries compressNone imgZero 1 1
  ∧ (tileEntry compressNone imgZero 1 1 0 0).plen
      = (tileEntry compressNone imgZero 1 1 0 0).data.length :=
  ⟨by decide,
   (tile_payload_length_consistent compressNone imgZero 1 1
      (tileEntry compressNone imgZero 1 1 0 0) (by decide)).1⟩

/-- Reading back a big-endian u32 recovers the value (below 2^32),
whatever follows it in the buffer. -/

theorem u32beDecode_u32be_append (n : Nat) (rest : List Nat) (h : n < 4294967296) :
    u32beDecode (u32be n ++ rest) = n := by
  simp only [u32be, List.cons_append, List.nil_append, u32beDecode]
  omega

/-- The embedded encoding is two bytes per input byte plus the two-byte
terminator. -/

theorem encodeEmbeddedStr_length (s : List Nat) :
    (encodeEmbeddedStr s).length = 2 * s.length + 2 := by
  rw [encodeEmbeddedStr, List.length_append]
  have h : ∀ t : List Nat, (t.flatMap fun c => [c, 0]).length = 2 * t.length := by
    intro t
    induction t with
    | nil => simp
    | cons c t ih => simp [ih]; omega
  rw [h]
  rfl

/-- Unfolding of `writeASLString` in "embedded" mode, with both string-type tests
resolved. -/

theorem writeASLString_embedded (s : List Nat) :
    writeASLString "embedded" s
      = u32be (encodeEmbeddedStr s).length ++ encodeEmbeddedStr s
        ++ List.replicate ((4 - (encodeEmbeddedStr s).length % 4) % 4) 0 := by
  rw [writeASLString]
  simp

/-- C6: in "embedded" mode the pre-padding buffer is exactly
`2*len(s)+2` bytes, that count is even, the u32 big-endian prefix holds
exactly that count, and everything written after the length field is a
multiple of 4 bytes long. -/

theorem writeASLString_embedded_spec (s : List Nat) (h : 2 * s.length + 2 < 4294967296) :
    (encodeEmbeddedStr s).length = 2 * s.length + 2
  ∧ (encodeEmbeddedStr s).length % 2 = 0
  ∧ (writeASLString "embedded" s).take 4 = u32be (2 * s.length + 2)
  ∧ u32beDecode (writeASLString "embedded" s) = 2 * s.length + 2
  ∧ (writeASLString "embedded" s).length
      = 4 + ((2 * s.length + 2) + (4 - (2 * s.length + 2) % 4) % 4)
  ∧ ((writeASLString "embedded" s).length - 4) % 4 = 0 := by
  have hlen := encodeEmbeddedStr_length s
  have hw := writeASLString_embedded s
  refine ⟨hlen, by omega, ?_, ?_, ?_, ?_⟩
  · rw [hw, List.append_assoc, List.take_left' (by simp [u32be]), hlen]
  · rw [hw, List.append_assoc, hlen, u32beDecode_u32be_append _ _ h]
  · rw [hw]
    simp [List.length_append, u32be, List.length_replicate, hlen]
    omega
  · rw [hw]
    simp only [List.length_append, u32be, List.length_replicate, hlen]
    simp
    omega

/-- C6 witness: the two-byte string "hi". -/

theorem writeASLString_embedded_spec_witness :
    2 * ([104, 105] : List Nat).length + 2 < 4294967296
  ∧ (encodeEmbeddedStr [104, 105]).length = 6
  ∧ u32beDecode (writeASLString "embedded" [104, 105]) = 6
  ∧ ((writeASLString "embedded" [104, 105]).length - 4) % 4 = 0 :=
  ⟨by decide, (writeASLString_embedded_spec [104, 105] (by decide)).1,
   (writeASLString_embedded_spec [104, 105] (by decide)).2.2.2.1,
   (writeASLString_embedded_spec [104, 105] (by decide)).2.2.2.2.2⟩

/-- The counting loop counts exactly the layers with a non-absent
style. -/

theorem styledCount_eq_countP (ls : List Layer) :
    styledCount ls = ls.countP isStyledLayer := by
  suffices h : ∀ n, ls.foldl (fun n l =>
      match l with
      | Layer.shape sl =>
        match sl.layerStyle with
        | some _ => n + 1
        | none => n
      | Layer.paint _ => n) n = n + ls.countP isStyledLayer by
    simpa [styledCount] using h 0
  induction ls with
  | nil => intro n; simp
  | cons l t ih =>
    intro n
    cases l with
    | shape sl =>
      cases hsl : sl.layerStyle with
      | none => simp [List.countP_cons, isStyledLayer, hsl, ih]
      | some st => simp [List.countP_cons, isStyledLayer, hsl, ih]; omega
    | paint pl => simp [List.countP_cons, isStyledLayer, ih]

/-- C7: in the style block, the u32 `style_count` field holds exactly
the number of input layers whose LayerStyle is non-absent, and every
emitted style record carries a u32 length field equal to the exact byte
length of the record body after it. -/

theorem asl_record_lengths (ls : List Layer) (hc : styledCount ls < 4294967296) :
    styledCount ls = ls.countP isStyledLayer
  ∧ ((createLayerStylesASL ls).drop 12).take 4 = u32be (styledCount ls)
  ∧ u32beDecode ((createLayerStylesASL ls).drop 12) = styledCount ls
  ∧ ∀ sl st, Layer.shape sl ∈ ls → sl.layerStyle = some st →
      (styleRecord sl st).take 4 = u32be (recordBody sl st).length
      ∧ (styleRecord sl st).drop 4 = recordBody sl st
      ∧ ((recordBody sl st).length < 4294967296 →
          u32beDecode (styleRecord sl st) = (recordBody sl st).length) := by
  have hdrop : (createLayerStylesASL ls).drop 12
      = u32be (styledCount ls) ++ ls.flatMap layerRecordBytes := by
    rw [createLayerStylesASL, List.append_assoc, List.drop_left' (by decide)]
  refine ⟨styledCount_eq_countP ls, ?_, ?_, ?_⟩
  · rw [hdrop, List.take_left' (by simp [u32be])]
  · rw [hdrop, u32beDecode_u32be_append _ _ hc]
  · intro sl st _ _
    refine ⟨?_, ?_, ?_⟩
    · rw [styleRecord, List.take_left' (by simp [u32be])]
    · rw [styleRecord, List.drop_left' (by simp [u32be])]
    · intro hb
      rw [styleRecord, u32beDecode_u32be_append _ _ hb]

set_option maxRecDepth 100000 in

/-- C7 witness: the style count and the record length field of the
single styled layer evaluate as stated. -/

theorem asl_record_lengths_witness :
    styledCount demoAslLayers < 4294967296
  ∧ u32beDecode ((createLayerStylesASL demoAslLayers).drop 12) = 1
  ∧ u32beDecode (styleRecord demoStyledLayer demoStyle)
      = (recordBody demoStyledLayer demoStyle).length :=
  ⟨by decide,
   (asl_record_lengths demoAslLayers (by decide)).2.2.1,
   ((asl_record_lengths demoAslLayers (by decide)).2.2.2 demoStyledLayer demoStyle
      (List.mem_singleton.mpr rfl) rfl).2.2 (by decide)⟩

/-- C3 (refuted by the code): `ToString` walks the attribute map in
iteration order without sorting the keys, so two serializations of the
same node — the same backing map, witnessed by the permutation — can
produce different bytes. -/

theorem xml_render_order_dependent :
    xmlDemoA.attrs.Perm xmlDemoB.attrs
  ∧ XMLNode.render xmlDemoA "" ≠ XMLNode.render xmlDemoB "" := by
  constructor
  · decide
  · decide

/-- C4 counterexample: the archive of the text/shape/paint document has
eleven members, two of them `.shapelayer/content.svg` entries (the text
layer produces one as well), and the animation and annotation members
carry the `krita_temp/` staging prefix instead of the claimed bare
paths. -/

theorem save_members_counterexample :
    (saveMembers "krita_temp" demoSaveLayers).length = 11
  ∧ "layers/layer2.shapelayer/content.svg" ∈ saveMembers "krita_temp" demoSaveLayers
  ∧ "layers/layer3.shapelayer/content.svg" ∈ saveMembers "krita_temp" demoSaveLayers
  ∧ "animation/index.xml" ∉ saveMembers "krita_temp" demoSaveLayers
  ∧ "annotations/icc" ∉ saveMembers "krita_temp" demoSaveLayers
  ∧ "krita_temp/animation/index.xml" ∈ saveMembers "krita_temp" demoSaveLayers := by
  refine ⟨?_, ?_, ?_, ?_, ?_, ?_⟩ <;> decide

/-- C4 amended: the exact member list, in order, of the
text/shape/paint document — two shapelayer SVG members, the three
paint members under `layers/`, the staging-prefixed animation and icc
members, and no layerstyles member anywhere (the style scan is
false). -/

theorem save_members_amended :
    saveMembers "krita_temp" demoSaveLayers
      = ["mimetype", "documentinfo.xml", "maindoc.xml",
         "layers/layer2.shapelayer/content.svg",
         "layers/layer3.shapelayer/content.svg",
         "layers/layer4", "layers/layer4.defaultpixel", "layers/layer4.icc",
         "krita_temp/animation/index.xml", "krita_temp/annotations/icc",
         "preview.png"]
  ∧ anyLayerStyled demoSaveLayers = false := by
  refine ⟨?_, ?_⟩ <;> decide

/-- C9 (refuted by the code): a failure at any step — here the icc
profile read, or the final layer-style write — makes `Save` return the
error without ever reaching `os.RemoveAll`, so the staging directories
are neither removed nor marked; cleanup happens only on the success
path. -/

theorem save_failure_skips_cleanup :
    runSave (saveStepNames false) (fun s => s == "read-icc") = (false, false)
  ∧ runSave (saveStepNames true) (fun s => s == "write-layerstyles") = (false, false)
  ∧ runSave (saveStepNames false) (fun _ => false) = (true, true)
  ∧ runSave (saveStepNames true) (fun _ => false) = (true, true) := by
  refine ⟨?_, ?_, ?_, ?_⟩ <;> decide

/-- C8 counterexample: a document that contains a PaintLayer with an
image still gets the synthesized transparent preview, because the code
only inspects the final layer. -/

theorem preview_ignores_earlier_paint_layers :
    hasPaintImageLayer demoPreviewLayers = true
  ∧ (createPreview demoPreviewLayers 100 80).source = PreviewSource.transparent 100 80 :=
  ⟨rfl, rfl⟩

/-- C8 amended: `createPreview` realises the amended selection rule,
and always produces a 256×256 thumbnail through the bilinear
`draw.ApproxBiLinear` kernel, encoded as PNG. -/

theorem preview_selection_amended (ls : List Layer) (w h : Nat) :
    (createPreview ls w h).source = previewSourceAmended ls w h
  ∧ (createPreview ls w h).thumbW = 256
  ∧ (createPreview ls w h).thumbH = 256
  ∧ (createPreview ls w h).filter = "ApproxBiLinear"
  ∧ (createPreview ls w h).format = "png" := by
  have hsrc : (createPreview ls w h).source = previewSourceAmended ls w h := by
    cases hl : ls.getLast? with
    | none => simp [createPreview, previewSourceAmended, lastLayerPaintImage, hl]
    | some l =>
      cases l with
      | shape sl => simp [createPreview, previewSourceAmended, lastLayerPaintImage, hl]
      | paint pl =>
        cases hi : pl.image with
        | none => simp [createPreview, previewSourceAmended, lastLayerPaintImage, hl, hi]
        | some img => simp [createPreview, previewSourceAmended, lastLayerPaintImage, hl, hi]
  refine ⟨hsrc, ?_, ?_, ?_, ?_⟩ <;>
    cases hm : lastLayerPaintImage ls <;> simp [createPreview, hm]
